import Mathlib

/-!
Verification of the saccade-detection core of `tracking.py` (magno_tracker).

This file shallowly embeds, over exact rationals, the parts of the source that
the specification's claims are about:

* the overlap-resolution loop of `Bout.process_saccades` (lines 4243-4269);
* the seam-crossing bookkeeping of `KalmanAngle.store` (lines 255-277);
* the `Saccade.__init__` constructor (lines 4580-4689), with the scipy cubic
  interpolation abstracted as an oracle argument;
* the prediction step `Kalman_Filter.get_prediction` (lines 142-167);
* the entry check of `butterworth_filter` (lines 4788-4824).

Floating-point numbers are modelled as exact rationals; `np.nan` is modelled by
`Option.none` where it can occur.  `np.pi` is the exact rational value of the
IEEE-754 double that numpy uses.  Python exceptions are modelled by
`Except String`.
-/

/-- The exact rational value of the IEEE-754 double `np.pi`. -/
def np_pi : ℚ := 884279719003555 / 281474976710656

/-- Rational `np.mod`: `a - m * floor (a / m)`. -/
def qmod (a m : ℚ) : ℚ := a - m * ⌊a / m⌋

/-- The phase correction `np.unwrap` adds for one first difference `d`
(default `discont = np.pi`, `period = 2 * np.pi`). -/
def unwrapCorrection (d : ℚ) : ℚ :=
  let ddmod0 := qmod (d + np_pi) (2 * np_pi) - np_pi
  let ddmod := if ddmod0 = -np_pi ∧ 0 < d then np_pi else ddmod0
  if |d| < np_pi then 0 else ddmod - d

/-- Tail of `np.unwrap`: `prev` is the previous original sample and `acc` the
accumulated phase correction (`cumsum` of the per-step corrections). -/
def npUnwrapGo (prev acc : ℚ) : List ℚ → List ℚ
  | [] => []
  | y :: ys =>
    let acc' := acc + unwrapCorrection (y - prev)
    (y + acc') :: npUnwrapGo y acc' ys

/-- Full `np.unwrap` on a 1-D sequence. -/
def npUnwrap : List ℚ → List ℚ
  | [] => []
  | x :: xs => x :: npUnwrapGo x 0 xs

/-- Discrete `np.gradient` on a 1-D sequence: one-sided differences at the edges and
central differences in the interior.  (numpy raises for sequences of fewer
than two samples; callers of this total function check that first.) -/
def npGradient (f : List ℚ) : List ℚ :=
  let n := f.length
  (List.range n).map (fun i =>
    if i = 0 then f.getD 1 0 - f.getD 0 0
    else if i = n - 1 then f.getD (n - 1) 0 - f.getD (n - 2) 0
    else (f.getD (i + 1) 0 - f.getD (i - 1) 0) / 2)

/-- Normalize one bound of a Python slice `a[s:e]` to an index into a list of
length `n`: negative values count from the end, and both ends clamp. -/
def pySliceIdx (n : ℕ) (i : ℤ) : ℕ :=
  if i < 0 then (max ((n : ℤ) + i) 0).toNat else min i.toNat n

/-- Python slicing `a[s:e]` (step 1) with clamping and negative indices. -/
def pySlice (a : List ℚ) (s e : ℤ) : List ℚ :=
  let s' := pySliceIdx a.length s
  let e' := pySliceIdx a.length e
  (a.drop s').take (e' - s')

/-- Python (numpy) indexing `a[i]`: negative indices count from the end and an
out-of-range index raises `IndexError`. -/
def pyGet (a : List ℚ) (i : ℤ) : Except String ℚ :=
  let idx := if i < 0 then (a.length : ℤ) + i else i
  if 0 ≤ idx ∧ idx < (a.length : ℤ) then .ok (a.getD idx.toNat 0)
  else .error "IndexError: index out of bounds"

/-- Dense grid `np.linspace a b num` (with endpoint): `a + (b - a) * i / (num - 1)`. -/
def linspace (a b : ℚ) (num : ℕ) : List ℚ :=
  (List.range num).map (fun i : ℕ => a + (b - a) * (i : ℚ) / ((num : ℚ) - 1))

/-- Mean `np.nanmean` of a NaN-free sequence. -/
def listMean (l : List ℚ) : ℚ := l.sum / l.length

/-- The square of `np.nanstd` (population variance, `ddof = 0`) of a NaN-free
sequence. -/
def listVar (l : List ℚ) : ℚ := (l.map (fun x => (x - listMean l) ^ 2)).sum / l.length

/-- Decidable encoding of `d < 2 * Real.sqrt v` for `0 ≤ v`
(used for float comparisons against `mean ± 2 * std` without square roots). -/
def lt2sqrt (d v : ℚ) : Bool := d < 0 ∨ d ^ 2 < 4 * v

/-- Decidable encoding of `2 * Real.sqrt v < d` for `0 ≤ v`. -/
def gt2sqrt (d v : ℚ) : Bool := 0 < d ∧ 4 * v < d ^ 2

/-- First index of the maximum of `|x|` over the remaining list, continuing
from index `i` with current best index `best` of value `bv`. -/
def argmaxAbsAux : List ℚ → ℕ → ℕ → ℚ → ℕ
  | [], _, best, _ => best
  | x :: xs, i, best, bv =>
    if |x| > bv then argmaxAbsAux xs (i + 1) i |x| else argmaxAbsAux xs (i + 1) best bv

/-- Index `np.argmax (np.abs l)`: index of the first occurrence of the maximal
absolute value.  (numpy raises on an empty sequence; callers check that.) -/
def argmaxAbs (l : List ℚ) : ℕ :=
  match l with
  | [] => 0
  | x :: xs => argmaxAbsAux xs 1 0 |x|

/-- The fields of a candidate `Saccade` that the overlap-resolution loop of
`Bout.process_saccades` (lines 4243-4269) reads: the integer start and stop
frames and the duration in seconds. -/
structure Sac where
  start : ℤ
  stop : ℤ
  duration : ℚ
deriving DecidableEq

/-- The clustering criterion of lines 4252-4257: membership of an endpoint of
one saccade in `range(start, stop + 1)` of the other, or a shared endpoint.
`s` is the saccade popped from the working set and `o` another member. -/
def sacOverlap (s o : Sac) : Bool :=
  -- is_contained: saccade.start in other_span or saccade.stop in other_span
  ((o.start ≤ s.start ∧ s.start ≤ o.stop) ∨ (o.start ≤ s.stop ∧ s.stop ≤ o.stop))
  -- contains_other: other_saccade.start in span or other_saccade.stop in span
  ∨ ((s.start ≤ o.start ∧ o.start ≤ s.stop) ∨ (s.start ≤ o.stop ∧ o.stop ≤ s.stop))
  -- same_span: shared start or shared stop
  ∨ (s.start = o.start ∨ s.stop = o.stop)

/-- Selection by `np.argmax` over the durations of a cluster, returning the member itself:
the first member of maximal duration wins, scanning left to right. -/
def longestSac (best : Sac) : List Sac → Sac
  | [] => best
  | x :: xs => if x.duration > best.duration then longestSac x xs else longestSac best xs

/-- One bounded run of the overlap-resolution loop of `Bout.process_saccades`,
lines 4243-4269: pop the first saccade of the working set, cluster it with
every other member that satisfies the criterion, remove the cluster from the
working set, and keep only the cluster's first longest-duration member; repeat
until the working set is empty.  `fuel` bounds the number of iterations; every
iteration consumes at least the popped element, so `fuel = length` suffices. -/
def resolveOverlapsFuel : ℕ → List Sac → List Sac
  | 0, _ => []
  | _, [] => []
  | fuel + 1, s :: rest =>
    let cluster := rest.filter (fun o => sacOverlap s o)
    let remaining := rest.filter (fun o => ¬ sacOverlap s o)
    let kept := if cluster.length + 1 > 1 then longestSac s cluster else s
    kept :: resolveOverlapsFuel fuel remaining

/-- The overlap-resolution loop of `Bout.process_saccades` (lines 4243-4269),
run to completion on a working set of candidate saccades. -/
def resolveOverlaps (l : List Sac) : List Sac := resolveOverlapsFuel l.length l

/-- Sorted by ascending start index. -/
def sortedByStart (l : List Sac) : Prop :=
  List.Pairwise (fun a b => a.start ≤ b.start) l

/-- Pairwise non-overlapping inclusive frame ranges `[start, stop]`. -/
def pairwiseDisjoint (l : List Sac) : Prop :=
  List.Pairwise (fun a b => a.stop < b.start ∨ b.stop < a.start) l

instance (l : List Sac) : Decidable (sortedByStart l) :=
  inferInstanceAs (Decidable (List.Pairwise _ l))

instance (l : List Sac) : Decidable (pairwiseDisjoint l) :=
  inferInstanceAs (Decidable (List.Pairwise _ l))

/-- A float value that may be NaN: `none` models `np.nan`, `some q` a finite
float modelled exactly as a rational. -/
def FloatQ : Type := Option ℚ

deriving instance DecidableEq for FloatQ

/-- Float `<`: every comparison involving NaN is false. -/
def fLt (a b : FloatQ) : Bool :=
  match a, b with
  | some x, some y => x < y
  | _, _ => false

/-- Float `+`: NaN propagates. -/
def fAdd (a b : FloatQ) : FloatQ :=
  match a, b with
  | some x, some y => some (x + y)
  | _, _ => none

/-- The mutable state of a `KalmanAngle` that `store` reads and writes:
`last_point` (initially `0`), `revolutions` (initially `0`) and the growing
`record` of unwrapped measurements. -/
structure AngleState where
  last_point : FloatQ
  revolutions : ℤ
  record : List FloatQ
deriving DecidableEq

/-- Method `KalmanAngle.store` (lines 255-277), up to and including the append to
`self.record`; the hand-off to the 2-D filter is not modelled.

Note on the NaN guard of the source: `point = np.copy(point)` returns a
(0-d) ndarray, never the float object `np.nan`, so the identity test
`point is np.nan` is false for every input and the intended replacement
`point = self.last_point` is dead code.  The embedding therefore applies no
replacement; when `point` is NaN both quadrant tests are false (float
comparisons with NaN are false), `last_point` becomes NaN and the value
appended to `record` is NaN. -/
def kalmanAngleStore (st : AngleState) (point : FloatQ) : AngleState :=
  let revs :=
    if fLt st.last_point (some (-(np_pi / 2))) && fLt (some (np_pi / 2)) point then
      st.revolutions - 1
    else if fLt (some (np_pi / 2)) st.last_point && fLt point (some (-(np_pi / 2))) then
      st.revolutions + 1
    else st.revolutions
  { last_point := point
    revolutions := revs
    record := st.record ++ [fAdd point (some (2 * np_pi * (revs : ℚ)))] }

/-- The noise-adaptive validity test of `Saccade.__init__` (lines 4624-4625
and 4671-4676): with `velo_mean` and `velo_std` the mean and population
standard deviation of the pre-onset velocity window, `velo_floor` is
`mean - 2 * std` and `velo_ceiling` is `mean + 2 * std`, and `success` is
cleared when a negative peak exceeds the floor or a positive peak falls short
of the ceiling.  The two float comparisons against `floor`/`ceiling` are
encoded without square roots by `lt2sqrt` on the variance. -/
def baselineTestKeeps (velos : List ℚ) (peak : ℚ) : Bool :=
  let m := listMean velos
  let v := listVar velos
  if peak < 0 ∧ lt2sqrt (m - peak) v then false        -- peak_velocity > velo_floor
  else if 0 < peak ∧ lt2sqrt (peak - m) v then false   -- peak_velocity < velo_ceiling
  else true

/-- Indices `np.where(pred)[0]` over a 1-D window: the ascending list of indices whose
element satisfies the predicate. -/
def whereIdx (p : ℚ → Bool) (l : List ℚ) : List ℤ :=
  ((List.range l.length).filter (fun i => p (l.getD i 0))).map (fun i => (i : ℤ))

/-- Minimum `.min()` of an integer ndarray (callers guard non-emptiness). -/
def listMinD : List ℤ → ℤ
  | [] => 0
  | x :: xs => xs.foldl min x

/-- The velocity series of `Saccade.__init__` (lines 4601-4602): the discrete
gradient of the unwrapped heading series, scaled by the framerate. -/
def velocityOf (arr : List ℚ) (framerate : ℚ) : List ℚ :=
  (npGradient (npUnwrap arr)).map (· * framerate)

/-- The fields a constructed `Saccade` exposes to the rest of the pipeline.
`success` is an `Option` because the source assigns the attribute only on
some paths: `none` models the attribute never having been set (so that a
later read raises `AttributeError`). -/
structure SaccadeRec where
  start : ℤ
  stop : ℤ
  start_time : ℚ
  stop_time : ℚ
  start_angle : ℚ
  stop_angle : ℚ
  amplitude : ℚ
  duration : ℚ
  peak_velocity : ℚ
  peak_time : ℚ
  success : Option Bool
deriving DecidableEq

/-- The `baseline_comparison` sub-branch of `Saccade.__init__`
(lines 4646-4670, which the source enters through a `breakpoint()`), given the
already-computed index arrays `saccading` and `not_saccading` (both shifted by
`start - 5`, faithfully ignoring the clamping of `xmin` at `0`), followed by
the `baseline_test` check of lines 4671-4676. -/
def saccadeBaselineComparison (arrU : List ℚ) (framerate : ℚ) (start stop : ℤ)
    (base : SaccadeRec) (velos_included : List ℚ) (peak_velocity peak_time : ℚ)
    (baseline_test : Bool) (saccading not_saccading : List ℤ) :
    Except String SaccadeRec := do
  -- lines 4659-4661: if len(saccading) > 0: start = saccading.min(); ...
  let ssa ←
    if saccading.length > 0 then do
      let a1 ← pyGet arrU (listMinD saccading)
      pure (listMinD saccading, a1)
    else pure (start, base.start_angle)
  -- lines 4664-4666
  let bigger := not_saccading.filter (fun j => ssa.1 < j)
  let tsa ←
    if saccading.length > 0 ∧ bigger.length > 0 then do
      let a1 ← pyGet arrU (listMinD bigger)
      pure (listMinD bigger, a1)
    else pure (stop, base.stop_angle)
  -- lines 4667-4670
  let duration1 := ((tsa.1 - ssa.1 : ℤ) : ℚ) / framerate
  let success1 := if tsa.1 - ssa.1 < 2 ∨ duration1 > 3 / 2 then false else true
  -- lines 4671-4676
  let success2 :=
    if baseline_test then success1 && baselineTestKeeps velos_included peak_velocity
    else success1
  pure { base with
          start := ssa.1
          stop := tsa.1
          start_angle := ssa.2
          stop_angle := tsa.2
          amplitude := tsa.2 - ssa.2
          duration := duration1
          peak_velocity := peak_velocity
          peak_time := peak_time
          success := some success2 }

/-- The validation part of the `interpolate_velocity` branch of
`Saccade.__init__` (lines 4621-4683), taking the already-computed pre-onset
window `velos_included = velocity[start_frame : start]` and interpolated peak
as inputs.  Float comparisons against `velo_floor = mean - 2 * std` and
`velo_ceiling = mean + 2 * std` are encoded without square roots by
`lt2sqrt`/`gt2sqrt` applied to differences from the mean and the variance. -/
def saccadeValidityPhase (arrU velocity : List ℚ) (framerate : ℚ)
    (start stop : ℤ) (base : SaccadeRec) (velos_included : List ℚ)
    (peak_velocity peak_time : ℚ) (baseline_comparison baseline_test : Bool) :
    Except String SaccadeRec :=
  if velos_included.length > 0 then
    -- lines 4624-4625 (variance carried; std comparisons encoded by gt2sqrt)
    let m := listMean velos_included
    let v := listVar velos_included
    -- line 4645: self.success = True
    if baseline_comparison then
      -- lines 4648-4658
      let offset : ℤ := -5
      let xmin : ℤ := max 0 (start + offset)
      let xmax : ℤ := min (arrU.length : ℤ) (stop + 10)
      let window := pySlice velocity xmin xmax
      let saccading :=
        (if 0 < peak_velocity then whereIdx (fun x => gt2sqrt (x - m) v) window
         else whereIdx (fun x => gt2sqrt (m - x) v) window).map (· + (start + offset))
      let not_saccading :=
        (if 0 < peak_velocity then whereIdx (fun x => !gt2sqrt (x - m) v) window
         else whereIdx (fun x => !gt2sqrt (m - x) v) window).map (· + (start + offset))
      saccadeBaselineComparison arrU framerate start stop base velos_included
        peak_velocity peak_time baseline_test saccading not_saccading
    else
      -- lines 4671-4676 with the start/stop fields untouched
      let success2 :=
        if baseline_test then baselineTestKeeps velos_included peak_velocity else true
      pure { base with
              peak_velocity := peak_velocity
              peak_time := peak_time
              success := some success2 }
  else
    -- lines 4682-4683: empty pre-onset window, self.success = False
    pure { base with
            peak_velocity := peak_velocity
            peak_time := peak_time
            success := some false }

/-- The `interpolate_velocity` branch of `Saccade.__init__` (lines 4606-4683).

`interp` is an oracle standing for the values produced by
`scipy.interpolate.interp1d(..., kind='cubic')`: it maps the window's sample
times, the window's sampled velocities, and the dense query grid to the
interpolated velocities.  The constructor raise of `interp1d` itself is
modelled: a cubic spline needs at least four samples, and line 4610 raises
`ValueError` for a shorter interpolation window.  (The evaluation at line
4613 can additionally raise scipy's bounds check when a query time falls
outside the sampled range; for a positive framerate and a window
`0 ≤ start ≤ stop < len` the grid `[0, duration]` lies inside the sampled
range `[(sf - start)/framerate, (stf - 1 - start)/framerate]`, so that raise
cannot fire on the inputs the theorems below quantify over, and the oracle is
total.)  `base` carries the fields computed by the common part of the
constructor (lines 4580-4605) with `success` still unset; the branch always
assigns `peak_velocity`, `peak_time` and `success`. -/
def saccadeInterpBranch (interp : List ℚ → List ℚ → List ℚ → List ℚ)
    (arrU velocity time : List ℚ) (framerate : ℚ) (start stop : ℤ)
    (base : SaccadeRec) (baseline_comparison baseline_test : Bool) :
    Except String SaccadeRec := do
  -- line 4608
  let sf : ℤ := max (start - 10) 0
  let stf : ℤ := min (stop + 11) (arrU.length : ℤ)
  let interp_xs := pySlice time sf stf
  let interp_ys := pySlice velocity sf stf
  -- line 4610: interp1d(..., kind='cubic') raises for fewer than four samples
  if interp_xs.length < 4 then
    throw "ValueError: x and y arrays must have at least 4 entries"
  else do
    -- lines 4612-4616
    let new_times := linspace 0 base.duration 1000
    let new_velocity := interp interp_xs interp_ys new_times
    if new_velocity = [] then
      throw "ValueError: attempt to get argmax of an empty sequence"
    else do
      let peak_ind := argmaxAbs new_velocity
      let peak_velocity := new_velocity.getD peak_ind 0
      let peak_time ← pyGet new_times (peak_ind : ℤ)
      -- line 4621: velos_included = velocity[start_frame : start]
      saccadeValidityPhase arrU velocity framerate start stop base
        (pySlice velocity sf start) peak_velocity peak_time
        baseline_comparison baseline_test

/-- The `else` branch of `Saccade.__init__` (lines 4684-4689): the discrete
peak of `velocity[start:stop]`.  `success` is never assigned on this path, so
the record keeps the unset marker it arrived with. -/
def saccadeDiscreteBranch (velocity time : List ℚ) (start stop : ℤ)
    (base : SaccadeRec) : Except String SaccadeRec := do
  let seg := pySlice velocity start stop
  if seg = [] then
    throw "ValueError: attempt to get argmax of an empty sequence"
  else do
    let peak_ind := argmaxAbs seg
    let peak_velocity := seg.getD peak_ind 0
    let peak_time ← pyGet (pySlice time start stop) (peak_ind : ℤ)
    pure { base with peak_velocity := peak_velocity, peak_time := peak_time }

/-- Constructor `Saccade.__init__` (lines 4580-4689).

* `start`/`stop` are taken as integers (the source rounds its float inputs
  with `int(round(...))` first).
* Python exceptions (`IndexError` from indexing an empty slice, `ValueError`
  from `np.gradient`/`np.argmax` on too-short input and from constructing
  `interp1d(..., kind='cubic')` on an interpolation window of fewer than four
  samples) are `Except.error`.
* The record handed to a branch has `success := none` (the attribute is not
  yet set) and placeholder zeros for the two peak fields, which every branch
  overwrites before returning. -/
def saccadeInit (interp : List ℚ → List ℚ → List ℚ → List ℚ)
    (arr : List ℚ) (framerate : ℚ) (start stop : ℤ)
    (interpolate_velocity baseline_comparison baseline_test : Bool) :
    Except String SaccadeRec := do
  -- line 4582: arr = np.unwrap(arr); line 4583: self.original_arr = arr
  let arrU := npUnwrap arr
  let n := arrU.length
  -- line 4585: self.arr = original_arr[start : stop + 1]
  let sarr := pySlice arrU start (stop + 1)
  -- lines 4587-4589: self.time = (arange(n) - start) / framerate
  let time := (List.range n).map (fun i : ℕ => ((i : ℚ) - (start : ℚ)) / framerate)
  -- line 4591
  let start_time := (start : ℚ) / framerate
  let stop_time := (stop : ℚ) / framerate
  -- lines 4593-4594: self.arr[0] and self.arr[-1]
  let start_angle ← pyGet sarr 0
  let stop_angle ← pyGet sarr (-1)
  -- lines 4598-4599
  let amplitude := stop_angle - start_angle
  let duration := ((stop - start : ℤ) : ℚ) / framerate
  -- lines 4601-4602: np.gradient raises for fewer than two samples
  if n < 2 then
    throw "ValueError: gradient needs at least two samples"
  else
    let velocity := velocityOf arr framerate
    let base : SaccadeRec :=
      { start := start, stop := stop, start_time := start_time, stop_time := stop_time,
        start_angle := start_angle, stop_angle := stop_angle,
        amplitude := amplitude, duration := duration,
        peak_velocity := 0, peak_time := 0, success := none }
    if interpolate_velocity then
      saccadeInterpBranch interp arrU velocity time framerate start stop base
        baseline_comparison baseline_test
    else
      saccadeDiscreteBranch velocity time start stop base

/-- A concrete, length-preserving instantiation of the interpolation oracle,
used only to state closed evaluations whose result does not depend on the
interpolated values. -/
def trivialInterp : List ℚ → List ℚ → List ℚ → List ℚ :=
  fun _ _ ts => ts.map (fun _ => 0)

/-- The state-transition matrix `A` of `Kalman_Filter.__init__` (lines
107-113): constant-acceleration propagation for two axes. -/
def kalmanA (dt : ℚ) : Matrix (Fin 6) (Fin 6) ℚ :=
  !![1, 0, dt, 0, dt ^ 2 / 2, 0;
     0, 1, 0, dt, 0, dt ^ 2 / 2;
     0, 0, 1, 0, dt, 0;
     0, 0, 0, 1, 0, dt;
     0, 0, 0, 0, 1, 0;
     0, 0, 0, 0, 0, 1]

/-- The control vector `B` of lines 114-115. -/
def kalmanB (dt : ℚ) : Fin 6 → ℚ :=
  ![dt ^ 3 / 6, dt ^ 3 / 6, dt ^ 2 / 2, dt ^ 2 / 2, dt, dt]

/-- The measurement function `C` of lines 117-119: direct position readout. -/
def kalmanC : Matrix (Fin 2) (Fin 6) ℚ :=
  !![1, 0, 0, 0, 0, 0;
     0, 1, 0, 0, 0, 0]

/-- The process-noise covariance `Ex` of lines 93-100, scaled by
`jerk_std ** 2`. -/
def kalmanEx (dt jerk_std : ℚ) : Matrix (Fin 6) (Fin 6) ℚ :=
  jerk_std ^ 2 •
    !![dt ^ 6 / 36, 0, dt ^ 5 / 12, 0, dt ^ 4 / 6, 0;
       0, dt ^ 6 / 36, 0, dt ^ 5 / 12, 0, dt ^ 4 / 6;
       dt ^ 5 / 12, 0, dt ^ 4 / 4, 0, dt ^ 3 / 2, 0;
       0, dt ^ 5 / 12, 0, dt ^ 4 / 4, 0, dt ^ 3 / 2;
       dt ^ 4 / 6, 0, dt ^ 3 / 2, 0, dt ^ 2, 0;
       0, dt ^ 4 / 6, 0, dt ^ 3 / 2, 0, dt ^ 2]

/-- The measurement-noise covariance `Ez` of lines 89-91. -/
def kalmanEz (x y : ℚ) : Matrix (Fin 2) (Fin 2) ℚ := !![x, 0; 0, y]

/-- The mutable state of a `Kalman_Filter` tracking `n` objects that
`get_prediction` reads and writes: the noise parameters set by `__init__`
(or replaced by `update_vals`), the state estimate `Q_estimate`, the error
covariance `P` and the Kalman gain `K`. -/
structure KFState (n : ℕ) where
  dt : ℚ
  jerk : ℚ
  jerk_std : ℚ
  tkn_x : ℚ
  tkn_y : ℚ
  Q_estimate : Matrix (Fin 6) (Fin n) ℚ
  P : Matrix (Fin 6) (Fin 6) ℚ
  K : Matrix (Fin 6) (Fin 2) ℚ

/-- The covariance prediction of line 155: `P = A P Aᵀ + Ex`. -/
def predictedP {n : ℕ} (st : KFState n) : Matrix (Fin 6) (Fin 6) ℚ :=
  kalmanA st.dt * st.P * (kalmanA st.dt).transpose + kalmanEx st.dt st.jerk_std

/-- The innovation covariance `C P Cᵀ + Ez` whose inverse line 158 takes. -/
def innovationCov {n : ℕ} (st : KFState n) : Matrix (Fin 2) (Fin 2) ℚ :=
  kalmanC * predictedP st * kalmanC.transpose + kalmanEz st.tkn_x st.tkn_y

/-- The determinant of a 2-by-2 matrix, written out. -/
def det2 (M : Matrix (Fin 2) (Fin 2) ℚ) : ℚ := M 0 0 * M 1 1 - M 0 1 * M 1 0

/-- The exact inverse of a 2-by-2 matrix with nonzero determinant, modelling
`np.linalg.inv` on the innovation covariance. -/
def inv2 (M : Matrix (Fin 2) (Fin 2) ℚ) : Matrix (Fin 2) (Fin 2) ℚ :=
  (1 / det2 M) • !![M 1 1, -(M 0 1); -(M 1 0), M 0 0]

/-- Method `Kalman_Filter.get_prediction` (lines 142-167).  The state estimate and
covariance are advanced first (lines 153-155); then the Kalman gain is
computed inside a `try`.  `np.linalg.inv` raises `LinAlgError` exactly when
the innovation covariance is singular; the bare `except:` catches it and the
method returns `np.array([nan, nan])` instead of the estimated positions —
modelled by `none` — leaving the gain `K` untouched.  The function is total:
no exception escapes. -/
def get_prediction {n : ℕ} (st : KFState n) :
    Option (Matrix (Fin n) (Fin 2) ℚ) × KFState n :=
  -- line 153: Q_estimate = A @ Q_estimate + (B * jerk)[:, None]
  let Q' := kalmanA st.dt * st.Q_estimate +
    Matrix.of (fun i _ => kalmanB st.dt i * st.jerk)
  -- line 155
  let P' := predictedP st
  let S := innovationCov st
  if det2 S = 0 then
    (none, { st with Q_estimate := Q', P := P' })
  else
    -- line 158: K = P Cᵀ (C P Cᵀ + Ez)⁻¹
    let K' := P' * kalmanC.transpose * inv2 S
    -- lines 162-165: estimate_points = Q_estimate[:2].T, shape (n, 2)
    (some (Matrix.of fun j i => Q' (Fin.castLE (by norm_num) i) j),
      { st with Q_estimate := Q', P := P', K := K' })

/-- A concrete one-object filter state with zero process and measurement
noise and zero covariance, reachable from
`Kalman_Filter(num_objects=1, jerk_std=0, measurement_noise_x=0,
measurement_noise_y=0)`: its innovation covariance is the zero matrix. -/
def kfSingularState : KFState 1 :=
  { dt := 1 / 30, jerk := 0, jerk_std := 0, tkn_x := 0, tkn_y := 0,
    Q_estimate := 0, P := 0, K := 0 }

/-- The filter mode `scipy.signal.butter` is configured with in
`butterworth_filter` (lines 4808-4819), selected by which bound is
zero/infinite.  (With finite float bounds, `high < inf` always holds, so the
choice over ℚ is bandpass for `low > 0` and lowpass for `low = 0`.) -/
inductive BWKind where
  | bandpass
  | highpass
  | lowpass
deriving DecidableEq

/-- Function `butterworth_filter` (lines 4788-4824).

* The first statement is
  `assert low >= 0 and high > 0, "Frequency bounds must be non-negative."`,
  modelled as an `Except.error` carrying the assertion message, raised before
  the series is touched.
* `sosfilt` is an oracle standing for `scipy.signal.butter` plus
  `scipy.signal.sosfilt` in the selected mode; `sample_rate` only
  parameterizes that external filter, so the model does not consume it.
* The unwrap along `axis=1` of the one-row input, the offset subtraction
  `vals[0, 0]` (an `IndexError` on an empty row) and the offset restoration
  are lines 4807 and 4820-4824. -/
def butterworth_filter (sosfilt : BWKind → List ℚ → List ℚ) (vals : List ℚ)
    (low high sample_rate : ℚ) : Except String (List ℚ) :=
  if ¬ (low ≥ 0 ∧ high > 0) then .error "Frequency bounds must be non-negative."
  else
    let v := npUnwrap vals
    let kind := if 0 < low then BWKind.bandpass else BWKind.lowpass
    match v with
    | [] => .error "IndexError: index out of bounds"
    | v0 :: _ => .ok ((sosfilt kind (v.map (fun x => x - v0))).map (fun x => x + v0))

set_option maxRecDepth 8000

/-- If no two members of the working set satisfy the clustering criterion,
every iteration of the loop pops a singleton cluster and keeps the popped
saccade, so the loop returns the working set unchanged. -/
theorem resolveOverlapsFuel_eq_self (fuel : ℕ) (l : List Sac) (hf : l.length ≤ fuel)
    (h : List.Pairwise (fun a b => sacOverlap a b = false) l) :
    resolveOverlapsFuel fuel l = l := by
  induction fuel generalizing l with
  | zero =>
    have : l = [] := List.eq_nil_of_length_eq_zero (Nat.le_zero.mp hf)
    subst this
    rfl
  | succ fuel ih =>
    cases l with
    | nil => rfl
    | cons s rest =>
      rcases List.pairwise_cons.mp h with ⟨hrel, hrest⟩
      have hclu : rest.filter (fun o => sacOverlap s o) = [] := by
        apply List.filter_eq_nil_iff.mpr
        intro o ho
        simp [hrel o ho]
      have hrem : rest.filter (fun o => ¬ sacOverlap s o) = rest := by
        apply List.filter_eq_self.mpr
        intro o ho
        simp [hrel o ho]
      have hlen : rest.length ≤ fuel := Nat.le_of_succ_le_succ (by simpa using hf)
      simp only [resolveOverlapsFuel, hclu, hrem, List.length_nil]
      simp only [Nat.zero_add, gt_iff_lt, Nat.lt_irrefl, if_false]
      exact congrArg (s :: ·) (ih rest hlen hrest)

/-- Helper: if the code's clustering criterion fails for a pair of saccades
then their inclusive frame ranges are disjoint. -/
theorem disjoint_of_not_overlap {a b : Sac}
    (h : sacOverlap a b = false) : a.stop < b.start ∨ b.stop < a.start := by
  simp only [sacOverlap, decide_eq_false_iff_not, not_or, not_and] at h
  omega

/-- C1 (counterexample): for the sorted candidate working set
`[0,10], [10,50], [11,12]` (durations 10, 40, 1), overlap resolution keeps
`[10,50]` for the first cluster and then keeps `[11,12]`, whose range is
nested inside `[10,50]`: the produced list is not pairwise non-overlapping,
refuting the claimed invariant of `Bout.process_saccades`. -/
theorem resolveOverlaps_output_overlaps :
    ¬ (sortedByStart (resolveOverlaps [⟨0, 10, 10⟩, ⟨10, 50, 40⟩, ⟨11, 12, 1⟩]) ∧
       pairwiseDisjoint (resolveOverlaps [⟨0, 10, 10⟩, ⟨10, 50, 40⟩, ⟨11, 12, 1⟩])) := by
  decide

/-- C1 (amended): if the candidate saccades are well-formed, sorted by start
index, and no two of them satisfy the code's clustering criterion, then the
list produced by the overlap-resolution loop of `Bout.process_saccades` is the
candidate list itself, sorted by ascending start index with pairwise
non-overlapping `[start, stop]` frame ranges.  (Without those hypotheses the
conclusion fails, see the counterexample.) -/
theorem resolveOverlaps_sorted_disjoint (l : List Sac)
    (hsorted : sortedByStart l)
    (hsep : List.Pairwise (fun a b => sacOverlap a b = false) l) :
    resolveOverlaps l = l ∧ sortedByStart (resolveOverlaps l) ∧
      pairwiseDisjoint (resolveOverlaps l) := by
  have heq : resolveOverlaps l = l := resolveOverlapsFuel_eq_self l.length l le_rfl hsep
  refine ⟨heq, ?_, ?_⟩
  · rw [heq]; exact hsorted
  · rw [heq]
    exact hsep.imp disjoint_of_not_overlap

/-- C1 (witness): the amended theorem applied to the concrete sorted,
non-overlapping candidate list `[0,5], [7,20]`. -/
theorem resolveOverlaps_sorted_disjoint_witness :
    resolveOverlaps [⟨0, 5, 5⟩, ⟨7, 20, 13⟩] = [⟨0, 5, 5⟩, ⟨7, 20, 13⟩] ∧
      sortedByStart (resolveOverlaps [⟨0, 5, 5⟩, ⟨7, 20, 13⟩]) ∧
      pairwiseDisjoint (resolveOverlaps [⟨0, 5, 5⟩, ⟨7, 20, 13⟩]) :=
  resolveOverlaps_sorted_disjoint [⟨0, 5, 5⟩, ⟨7, 20, 13⟩] (by decide) (by decide)

/-- C2: if the frame range of `o` is nested inside the frame range of `s` and
`o` has the shorter duration, then overlap resolution on the working set
consisting of the two candidates keeps only `s`, in either input order: the
pair is clustered in the first iteration and the cluster is replaced by its
longest-duration member. -/
theorem resolveOverlaps_nested (s o : Sac)
    (h1 : s.start ≤ o.start) (h2 : o.start ≤ o.stop) (h3 : o.stop ≤ s.stop)
    (h4 : o.duration < s.duration) :
    resolveOverlaps [s, o] = [s] ∧ resolveOverlaps [o, s] = [s] := by
  have hso : sacOverlap s o = true := by
    simp only [sacOverlap, decide_eq_true_eq]
    omega
  have hos : sacOverlap o s = true := by
    simp only [sacOverlap, decide_eq_true_eq]
    omega
  constructor
  · simp only [resolveOverlaps, List.length_cons, List.length_nil,
      resolveOverlapsFuel, List.filter, hso, decide_eq_true_eq]
    simp [longestSac, not_lt.mpr h4.le]
  · simp only [resolveOverlaps, List.length_cons, List.length_nil,
      resolveOverlapsFuel, List.filter, hos, decide_eq_true_eq]
    simp [longestSac, h4]

/-- C2 (witness): the spec's example, nested candidates `[10,40]` and
`[15,25]` (durations 30 and 10 at unit framerate): only `[10,40]` survives,
whichever order the detector produced them in. -/
theorem resolveOverlaps_nested_witness :
    resolveOverlaps [⟨10, 40, 30⟩, ⟨15, 25, 10⟩] = [⟨10, 40, 30⟩] ∧
      resolveOverlaps [⟨15, 25, 10⟩, ⟨10, 40, 30⟩] = [⟨10, 40, 30⟩] :=
  resolveOverlaps_nested ⟨10, 40, 30⟩ ⟨15, 25, 10⟩
    (by decide) (by decide) (by decide) (by decide)

/-- C8 (counterexample): overlap resolution is not idempotent.  For the sorted
candidate working set `[0,10], [10,50], [12,13]` the first pass keeps
`[10,50]` (longest of the first cluster) and then `[12,13]`, which is nested
inside it; a second pass merges the two, so applying overlap resolution to a
list that is already its own output changes it. -/
theorem resolveOverlaps_not_idempotent :
    resolveOverlaps (resolveOverlaps [⟨0, 10, 10⟩, ⟨10, 50, 40⟩, ⟨12, 13, 1⟩]) ≠
      resolveOverlaps [⟨0, 10, 10⟩, ⟨10, 50, 40⟩, ⟨12, 13, 1⟩] := by
  decide

/-- C8 (amended): overlap resolution is a no-op on every working set in which
no two members satisfy the code's clustering criterion; on such already
conflict-free lists (in particular on every fixed point of the loop) a second
application returns the list unchanged.  Outputs of the loop need not be
conflict-free, so idempotence fails in general (see the counterexample). -/
theorem resolveOverlaps_noop (l : List Sac)
    (hsep : List.Pairwise (fun a b => sacOverlap a b = false) l) :
    resolveOverlaps l = l :=
  resolveOverlapsFuel_eq_self l.length l le_rfl hsep

/-- C8 (witness): the amended no-op theorem applied to the concrete
conflict-free list `[2,4], [8,9]`. -/
theorem resolveOverlaps_noop_witness :
    resolveOverlaps [⟨2, 4, 2⟩, ⟨8, 9, 1⟩] = [⟨2, 4, 2⟩, ⟨8, 9, 1⟩] :=
  resolveOverlaps_noop [⟨2, 4, 2⟩, ⟨8, 9, 1⟩] (by decide)

/-- C3 (counterexample): the raw readings `-1` and `5/2` differ by `7/2`,
which is more than `np.pi`, in one direction, yet `KalmanAngle.store` leaves
the revolution count unchanged: the seam test fires on the quadrant
conditions `last < -pi/2 and point > pi/2` (or symmetrically), not on the
size of the jump, so this more-than-pi jump is not counted as a crossing. -/
theorem kalmanAngleStore_large_jump_uncounted :
    (5 / 2 : ℚ) - (-1) > np_pi ∧
      (kalmanAngleStore ⟨some (-1), 0, []⟩ (some (5 / 2))).revolutions = 0 := by
  constructor
  · rw [np_pi]; norm_num
  · norm_num [kalmanAngleStore, fLt, np_pi]

/-- C3 (amended): `KalmanAngle.store` decrements the revolution count by
exactly one when the previous reading is below `-pi/2` and the new one above
`pi/2`, increments it by exactly one in the symmetric case, and leaves it
unchanged otherwise.  Each of the two firing conditions forces the readings
to differ by more than `pi` in the corresponding direction (but not
conversely: not every more-than-pi jump fires, see the counterexample). -/
theorem kalmanAngleStore_revolutions (last p : ℚ) (rev : ℤ) (rec' : List FloatQ) :
    ((last < -(np_pi / 2) ∧ np_pi / 2 < p) →
      (kalmanAngleStore ⟨some last, rev, rec'⟩ (some p)).revolutions = rev - 1 ∧
        p - last > np_pi) ∧
    ((np_pi / 2 < last ∧ p < -(np_pi / 2)) →
      (kalmanAngleStore ⟨some last, rev, rec'⟩ (some p)).revolutions = rev + 1 ∧
        last - p > np_pi) ∧
    (¬ (last < -(np_pi / 2) ∧ np_pi / 2 < p) → ¬ (np_pi / 2 < last ∧ p < -(np_pi / 2)) →
      (kalmanAngleStore ⟨some last, rev, rec'⟩ (some p)).revolutions = rev) := by
  have hpi : (0 : ℚ) < np_pi := by rw [np_pi]; norm_num
  refine ⟨fun h => ⟨?_, by linarith [h.1, h.2]⟩, fun h => ⟨?_, by linarith [h.1, h.2]⟩,
    fun h1 h2 => ?_⟩
  · simp [kalmanAngleStore, fLt, h.1, h.2]
  · have hnot : ¬ (last < -(np_pi / 2) ∧ np_pi / 2 < p) := by
      intro hc
      linarith [h.1, h.2, hc.1, hc.2]
    simp only [kalmanAngleStore, fLt, Bool.and_eq_true, decide_eq_true_eq]
    rw [if_neg (by tauto), if_pos ⟨h.1, h.2⟩]
  · simp only [kalmanAngleStore, fLt, Bool.and_eq_true, decide_eq_true_eq]
    rw [if_neg (by tauto), if_neg (by tauto)]

/-- C3 (witness): the amended theorem at the concrete seam crossing from
`-2` to `2` with revolution count `5`: the count drops to `4` and the jump
exceeds `np.pi`. -/
theorem kalmanAngleStore_revolutions_witness :
    (kalmanAngleStore ⟨some (-2), 5, []⟩ (some 2)).revolutions = 4 ∧
      (2 : ℚ) - (-2) > np_pi := by
  have h := (kalmanAngleStore_revolutions (-2) 2 5 []).1
    (by constructor <;> (rw [np_pi]; norm_num))
  exact ⟨by rw [h.1]; norm_num, h.2⟩

/-- C7 (code evaluated at the failing input): storing a NaN reading after a
last unwrapped value of `1` appends NaN to the record (not the frozen value
`1`) and poisons `last_point` with NaN; only the revolution count stays
unchanged.  The dead identity test `point is np.nan` (always false after
`np.copy`) is the slip: the source's own replacement statement
`point = self.last_point` shows the intent the spec describes. -/
theorem kalmanAngleStore_nan_not_replaced :
    (kalmanAngleStore ⟨some 1, 0, [some 1]⟩ none).record = [some 1, none] ∧
      (kalmanAngleStore ⟨some 1, 0, [some 1]⟩ none).last_point = none ∧
      (kalmanAngleStore ⟨some 1, 0, [some 1]⟩ none).revolutions = 0 := by
  refine ⟨?_, ?_, ?_⟩ <;> norm_num [kalmanAngleStore, fAdd, fLt, np_pi]

/-- The population variance is nonnegative. -/
theorem listVar_nonneg (l : List ℚ) : 0 ≤ listVar l := by
  unfold listVar
  apply div_nonneg
  · apply List.sum_nonneg
    intro x hx
    rcases List.mem_map.mp hx with ⟨a, _, rfl⟩
    positivity
  · positivity

/-- Encoding `lt2sqrt` captures the float comparison `d < 2 * sqrt v` exactly. -/
theorem lt2sqrt_iff (d v : ℚ) (hv : 0 ≤ v) :
    lt2sqrt d v = true ↔ (d : ℝ) < 2 * Real.sqrt (v : ℝ) := by
  have hv' : (0 : ℝ) ≤ (v : ℝ) := by exact_mod_cast hv
  simp only [lt2sqrt, decide_eq_true_eq]
  constructor
  · rintro (hd | hd)
    · have : (d : ℝ) < 0 := by exact_mod_cast hd
      have := Real.sqrt_nonneg (v : ℝ)
      linarith
    · rcases lt_or_le d 0 with hd0 | hd0
      · have : (d : ℝ) < 0 := by exact_mod_cast hd0
        have := Real.sqrt_nonneg (v : ℝ)
        linarith
      · have hd0' : (0 : ℝ) ≤ (d : ℝ) / 2 := by
          have : (0 : ℝ) ≤ (d : ℝ) := by exact_mod_cast hd0
          linarith
        have hsq : ((d : ℝ) / 2) ^ 2 < (v : ℝ) := by
          have : ((d : ℝ)) ^ 2 < 4 * (v : ℝ) := by exact_mod_cast hd
          nlinarith
        have := (Real.lt_sqrt hd0').mpr hsq
        linarith
  · intro h
    rcases lt_or_le d 0 with hd0 | hd0
    · exact Or.inl hd0
    · right
      have hd0' : (0 : ℝ) ≤ (d : ℝ) / 2 := by
        have : (0 : ℝ) ≤ (d : ℝ) := by exact_mod_cast hd0
        linarith
      have hlt : (d : ℝ) / 2 < Real.sqrt (v : ℝ) := by linarith
      have := (Real.lt_sqrt hd0').mp hlt
      have h4 : ((d : ℝ)) ^ 2 < 4 * (v : ℝ) := by nlinarith
      exact_mod_cast h4

/-- Encoding `gt2sqrt` captures the float comparison `2 * sqrt v < d` exactly. -/
theorem gt2sqrt_iff (d v : ℚ) (hv : 0 ≤ v) :
    gt2sqrt d v = true ↔ 2 * Real.sqrt (v : ℝ) < (d : ℝ) := by
  have hv' : (0 : ℝ) ≤ (v : ℝ) := by exact_mod_cast hv
  simp only [gt2sqrt, decide_eq_true_eq]
  constructor
  · rintro ⟨hd0, hd⟩
    have hd0' : (0 : ℝ) < (d : ℝ) / 2 := by
      have : (0 : ℝ) < (d : ℝ) := by exact_mod_cast hd0
      linarith
    have hsq : (v : ℝ) < ((d : ℝ) / 2) ^ 2 := by
      have : 4 * (v : ℝ) < ((d : ℝ)) ^ 2 := by exact_mod_cast hd
      nlinarith
    have := (Real.sqrt_lt' hd0').mpr hsq
    linarith
  · intro h
    have hd0 : (0 : ℚ) < d := by
      have h0 : (0 : ℝ) ≤ 2 * Real.sqrt (v : ℝ) := by
        have := Real.sqrt_nonneg (v : ℝ)
        linarith
      have : (0 : ℝ) < (d : ℝ) := lt_of_le_of_lt h0 h
      exact_mod_cast this
    refine ⟨hd0, ?_⟩
    have hd0' : (0 : ℝ) < (d : ℝ) / 2 := by
      have : (0 : ℝ) < (d : ℝ) := by exact_mod_cast hd0
      linarith
    have hlt : Real.sqrt (v : ℝ) < (d : ℝ) / 2 := by linarith
    have := (Real.sqrt_lt' hd0').mp hlt
    have h4 : 4 * (v : ℝ) < ((d : ℝ)) ^ 2 := by nlinarith
    exact_mod_cast h4

/-- C4 (counterexample): for the pre-onset window `[1, -1]` (mean `0`,
standard deviation `1`, so `floor = -2`) a peak velocity of exactly `-2`
lies on the boundary of `[floor, ceiling]` — not strictly outside it — yet
the test keeps the saccade valid, because the source rejects a negative peak
only when it is strictly greater than the floor. -/
theorem baselineTestKeeps_boundary_kept :
    baselineTestKeeps [1, -1] (-2) = true ∧
      ((-2 : ℝ)) = (listMean [1, -1] : ℝ) - 2 * Real.sqrt ((listVar [1, -1] : ℝ)) := by
  have hm : listMean [1, -1] = 0 := by
    simp [listMean]
  have hv : listVar [1, -1] = 1 := by
    simp [listVar, hm]
  constructor
  · simp only [baselineTestKeeps, hm, hv, lt2sqrt]
    norm_num
  · rw [hm, hv]
    simp [Real.sqrt_one]

/-- C4 (amended): the validity test keeps a candidate saccade exactly when
its peak velocity is on the far side of the noise band in its own direction:
a zero peak is always kept, a negative peak is kept iff it is at most
`mean - 2 * std` (boundary equality kept), and a positive peak is kept iff it
is at least `mean + 2 * std` (boundary equality kept).  In particular a
negative peak above the ceiling or a positive peak below the floor — both
strictly outside `[floor, ceiling]` — is rejected, and a peak exactly on the
relevant boundary is accepted, refining the claimed strictly-outside rule. -/
theorem baselineTestKeeps_iff (velos : List ℚ) (peak : ℚ) :
    baselineTestKeeps velos peak = true ↔
      (peak = 0 ∨
        (peak < 0 ∧
          (peak : ℝ) ≤ (listMean velos : ℝ) - 2 * Real.sqrt ((listVar velos : ℝ))) ∨
        (0 < peak ∧
          (listMean velos : ℝ) + 2 * Real.sqrt ((listVar velos : ℝ)) ≤ (peak : ℝ))) := by
  have hv := listVar_nonneg velos
  have hfloor := lt2sqrt_iff (listMean velos - peak) (listVar velos) hv
  have hceil := lt2sqrt_iff (peak - listMean velos) (listVar velos) hv
  rw [show ((listMean velos - peak : ℚ) : ℝ) = (listMean velos : ℝ) - (peak : ℝ) by push_cast; ring]
    at hfloor
  rw [show ((peak - listMean velos : ℚ) : ℝ) = (peak : ℝ) - (listMean velos : ℝ) by push_cast; ring]
    at hceil
  have hkeep : baselineTestKeeps velos peak = true ↔
      (¬ (peak < 0 ∧ lt2sqrt (listMean velos - peak) (listVar velos) = true) ∧
        ¬ (0 < peak ∧ lt2sqrt (peak - listMean velos) (listVar velos) = true)) := by
    simp only [baselineTestKeeps]
    split_ifs with h1 h2
    · simp only [Bool.false_eq_true, false_iff]
      intro hc
      exact hc.1 h1
    · simp only [Bool.false_eq_true, false_iff]
      intro hc
      exact hc.2 h2
    · simp only [true_iff]
      exact ⟨h1, h2⟩
  rw [hkeep, hfloor, hceil]
  rcases lt_trichotomy peak 0 with hneg | hz | hpos
  · have hnegR : (peak : ℝ) < 0 := by exact_mod_cast hneg
    constructor
    · rintro ⟨hA, hB⟩
      have hnl : ¬ ((listMean velos : ℝ) - (peak : ℝ) < 2 * Real.sqrt ((listVar velos : ℝ))) :=
        fun hr => hA ⟨hneg, hr⟩
      exact Or.inr (Or.inl ⟨hneg, by linarith [not_lt.mp hnl]⟩)
    · rintro (hz' | ⟨_, hle⟩ | ⟨hp, _⟩)
      · exact absurd (hz' ▸ hneg) (lt_irrefl 0)
      · exact ⟨fun hc => by linarith [hc.2], fun hc => absurd hc.1 (by linarith)⟩
      · exact absurd hp (by linarith)
  · subst hz
    constructor
    · intro _
      exact Or.inl rfl
    · intro _
      exact ⟨fun hc => absurd hc.1 (lt_irrefl 0), fun hc => absurd hc.1 (lt_irrefl 0)⟩
  · have hposR : (0 : ℝ) < (peak : ℝ) := by exact_mod_cast hpos
    constructor
    · rintro ⟨hA, hB⟩
      have hnl : ¬ ((peak : ℝ) - (listMean velos : ℝ) < 2 * Real.sqrt ((listVar velos : ℝ))) :=
        fun hr => hB ⟨hpos, hr⟩
      exact Or.inr (Or.inr ⟨hpos, by linarith [not_lt.mp hnl]⟩)
    · rintro (hz' | ⟨hn, _⟩ | ⟨_, hge⟩)
      · exact absurd (hz' ▸ hpos) (lt_irrefl 0)
      · exact absurd hn (by linarith)
      · exact ⟨fun hc => absurd hc.1 (by linarith), fun hc => by linarith [hc.2]⟩

/-- C4 (witness): the amended characterization at the window `[1, -1]`
(mean `0`, std `1`, ceiling `2`) and peak velocity `3`: the peak is at least
the ceiling, so the saccade is kept. -/
theorem baselineTestKeeps_iff_witness : baselineTestKeeps [1, -1] 3 = true := by
  have hm : listMean [1, -1] = 0 := by simp [listMean]
  have hv : listVar [1, -1] = 1 := by simp [listVar, hm]
  refine (baselineTestKeeps_iff [1, -1] 3).mpr (Or.inr (Or.inr ⟨by norm_num, ?_⟩))
  rw [hm, hv]
  push_cast
  rw [Real.sqrt_one]
  norm_num

theorem linspace_length (a b : ℚ) (num : ℕ) : (linspace a b num).length = num := by
  unfold linspace
  rw [List.length_map, List.length_range]

theorem pyGet_zero (a : List ℚ) (h : a ≠ []) : pyGet a 0 = .ok (a.getD 0 0) := by
  have h0 : 0 < a.length := List.length_pos.mpr h
  simp [pyGet, h0]

theorem pyGet_neg_one (a : List ℚ) (h : a ≠ []) :
    pyGet a (-1) = .ok (a.getD (a.length - 1) 0) := by
  have h0 : 0 < a.length := List.length_pos.mpr h
  simp only [pyGet]
  split_ifs with h1 h2
  · have he : ((a.length : ℤ) + -1).toNat = a.length - 1 := by omega
    rw [he]
  · exfalso; omega
  · exfalso; omega
  · exfalso; omega

theorem pyGet_nat (a : List ℚ) (k : ℕ) (h : k < a.length) :
    pyGet a (k : ℤ) = .ok (a.getD k 0) := by
  simp only [pyGet]
  split_ifs with h1 h2
  · exfalso; omega
  · exfalso; omega
  · simp
  · exfalso; omega

theorem npUnwrapGo_length (l : List ℚ) : ∀ prev acc, (npUnwrapGo prev acc l).length = l.length := by
  induction l with
  | nil => intro prev acc; rfl
  | cons y ys ih =>
    intro prev acc
    simp [npUnwrapGo, ih]

theorem npUnwrap_length (l : List ℚ) : (npUnwrap l).length = l.length := by
  cases l with
  | nil => rfl
  | cons x xs => simp [npUnwrap, npUnwrapGo_length]

theorem argmaxAbsAux_lt (xs : List ℚ) : ∀ i best bv, best < i →
    argmaxAbsAux xs i best bv < i + xs.length := by
  induction xs with
  | nil => intro i best bv h; simpa [argmaxAbsAux] using h
  | cons x xs ih =>
    intro i best bv h
    simp only [argmaxAbsAux, List.length_cons]
    split
    · have := ih (i + 1) i |x| (Nat.lt_succ_self i)
      omega
    · have := ih (i + 1) best bv (Nat.lt_succ_of_lt h)
      omega

theorem argmaxAbs_lt (l : List ℚ) (h : l ≠ []) : argmaxAbs l < l.length := by
  cases l with
  | nil => exact absurd rfl h
  | cons x xs =>
    simp only [argmaxAbs, List.length_cons]
    have := argmaxAbsAux_lt xs 1 0 |x| Nat.one_pos
    omega

theorem pySlice_ne_nil (a : List ℚ) (s e : ℤ) (h0 : 0 ≤ s) (hse : s < e)
    (he : e ≤ (a.length : ℤ)) : pySlice a s e ≠ [] := by
  apply List.ne_nil_of_length_pos
  simp only [pySlice, pySliceIdx]
  rw [if_neg (by omega : ¬ s < 0), if_neg (by omega : ¬ e < 0)]
  rw [List.length_take, List.length_drop]
  omega

theorem pySlice_stop_zero (a : List ℚ) (s : ℤ) : pySlice a s 0 = [] := by
  simp [pySlice, pySliceIdx]

theorem bind_ok_iff {α β : Type} {x : Except String α} {f : α → Except String β} {r : β} :
    (x >>= f) = .ok r ↔ ∃ a, x = .ok a ∧ f a = .ok r := by
  cases x <;> simp [Bind.bind, Except.bind]

theorem throw_ne_ok {α : Type} (msg : String) (a : α) :
    (throw msg : Except String α) ≠ .ok a := by
  intro h
  rw [show (throw msg : Except String α) = Except.error msg from rfl] at h
  cases h

theorem saccadeBaselineComparison_success_isSome (arrU : List ℚ) (framerate : ℚ)
    (start stop : ℤ) (base : SaccadeRec) (velos : List ℚ) (pv pt : ℚ) (bt : Bool)
    (saccading not_saccading : List ℤ) :
    ∀ r, saccadeBaselineComparison arrU framerate start stop base velos pv pt bt
      saccading not_saccading = .ok r → r.success.isSome := by
  intro r h
  simp only [saccadeBaselineComparison] at h
  split at h
  · obtain ⟨a1, ha1, h⟩ := bind_ok_iff.mp h
    obtain ⟨y, hy, h⟩ := bind_ok_iff.mp h
    split at h
    · obtain ⟨a2, ha2, h⟩ := bind_ok_iff.mp h
      obtain ⟨y1, hy1, h⟩ := bind_ok_iff.mp h
      simp only [Pure.pure, Except.pure, Except.ok.injEq] at h
      subst h
      rfl
    · obtain ⟨y1, hy1, h⟩ := bind_ok_iff.mp h
      simp only [Pure.pure, Except.pure, Except.ok.injEq] at h
      subst h
      rfl
  · obtain ⟨y, hy, h⟩ := bind_ok_iff.mp h
    split at h
    · obtain ⟨a2, ha2, h⟩ := bind_ok_iff.mp h
      obtain ⟨y1, hy1, h⟩ := bind_ok_iff.mp h
      simp only [Pure.pure, Except.pure, Except.ok.injEq] at h
      subst h
      rfl
    · obtain ⟨y1, hy1, h⟩ := bind_ok_iff.mp h
      simp only [Pure.pure, Except.pure, Except.ok.injEq] at h
      subst h
      rfl

theorem saccadeValidityPhase_empty (arrU velocity : List ℚ) (framerate : ℚ)
    (start stop : ℤ) (base : SaccadeRec) (pv pt : ℚ) (bc bt : Bool) :
    saccadeValidityPhase arrU velocity framerate start stop base [] pv pt bc bt =
      .ok { base with peak_velocity := pv, peak_time := pt, success := some false } := by
  simp [saccadeValidityPhase]
  rfl

theorem saccadeValidityPhase_success_isSome (arrU velocity : List ℚ) (framerate : ℚ)
    (start stop : ℤ) (base : SaccadeRec) (velos : List ℚ) (pv pt : ℚ) (bc bt : Bool) :
    ∀ r, saccadeValidityPhase arrU velocity framerate start stop base velos pv pt bc bt =
      .ok r → r.success.isSome := by
  intro r h
  simp only [saccadeValidityPhase] at h
  split at h
  · split at h
    · exact saccadeBaselineComparison_success_isSome _ framerate start stop _ _ _ _ bt _ _ r h
    · simp only [Pure.pure, Except.pure, Except.ok.injEq] at h
      subst h
      rfl
  · simp only [Pure.pure, Except.pure, Except.ok.injEq] at h
    subst h
    rfl

theorem npGradient_length (f : List ℚ) : (npGradient f).length = f.length := by
  unfold npGradient
  rw [List.length_map, List.length_range]

theorem velocityOf_length (arr : List ℚ) (fr : ℚ) :
    (velocityOf arr fr).length = arr.length := by
  unfold velocityOf
  rw [List.length_map, npGradient_length, npUnwrap_length]

theorem pySlice_length_of_nonneg (a : List ℚ) (s e : ℤ) (h0 : 0 ≤ s) (h1 : 0 ≤ e) :
    (pySlice a s e).length = min e.toNat a.length - min s.toNat a.length := by
  simp only [pySlice, pySliceIdx]
  rw [if_neg (by omega : ¬ s < 0), if_neg (by omega : ¬ e < 0)]
  rw [List.length_take, List.length_drop]
  omega

theorem saccadeInterpBranch_empty_baseline
    (interp : List ℚ → List ℚ → List ℚ → List ℚ)
    (arrU velocity time : List ℚ) (framerate : ℚ) (start stop : ℤ)
    (base : SaccadeRec) (bc bt : Bool)
    (hlen : ∀ a b c, (interp a b c).length = c.length)
    (hwin : 4 ≤ (pySlice time (max (start - 10) 0)
      (min (stop + 11) (arrU.length : ℤ))).length)
    (hempty : pySlice velocity (max (start - 10) 0) start = []) :
    ∃ r, saccadeInterpBranch interp arrU velocity time framerate start stop base bc bt =
        .ok r ∧ r.success = some false := by
  have hw4 : ¬ ((pySlice time (max (start - 10) 0)
      (min (stop + 11) (arrU.length : ℤ))).length < 4) := by omega
  have hne : ∀ a b, interp a b (linspace 0 base.duration 1000) ≠ [] := by
    intro a b h
    have := hlen a b (linspace 0 base.duration 1000)
    rw [h, linspace_length] at this
    simp at this
  have hget : ∀ a b,
      pyGet (linspace 0 base.duration 1000)
        ((argmaxAbs (interp a b (linspace 0 base.duration 1000)) : ℕ) : ℤ) =
        .ok ((linspace 0 base.duration 1000).getD
          (argmaxAbs (interp a b (linspace 0 base.duration 1000))) 0) := by
    intro a b
    apply pyGet_nat
    rw [linspace_length]
    have := argmaxAbs_lt _ (hne a b)
    rwa [hlen a b, linspace_length] at this
  simp only [saccadeInterpBranch, hempty, hne, hget, hw4, saccadeValidityPhase_empty,
    if_false, ite_false, Except.bind, Bind.bind]
  exact ⟨_, rfl, rfl⟩

theorem saccadeDiscreteBranch_success (velocity time : List ℚ) (start stop : ℤ)
    (base : SaccadeRec) :
    ∀ r, saccadeDiscreteBranch velocity time start stop base = .ok r →
      r.success = base.success := by
  intro r h
  simp only [saccadeDiscreteBranch] at h
  split at h
  · exact absurd h (throw_ne_ok _ _)
  · obtain ⟨pt, hpt, h⟩ := bind_ok_iff.mp h
    simp only [Pure.pure, Except.pure, Except.ok.injEq] at h
    subst h
    rfl

theorem saccadeInterpBranch_success_isSome
    (interp : List ℚ → List ℚ → List ℚ → List ℚ)
    (arrU velocity time : List ℚ) (framerate : ℚ) (start stop : ℤ)
    (base : SaccadeRec) (bc bt : Bool) :
    ∀ r, saccadeInterpBranch interp arrU velocity time framerate start stop base bc bt =
        .ok r → r.success.isSome := by
  intro r h
  simp only [saccadeInterpBranch] at h
  split at h
  · exact absurd h (throw_ne_ok _ _)
  · split at h
    · exact absurd h (throw_ne_ok _ _)
    · obtain ⟨pt, hpt, h⟩ := bind_ok_iff.mp h
      exact saccadeValidityPhase_success_isSome _ _ framerate start stop _ _ _ _ bc bt r h

/-- C6 (amended): for every input series of at least four samples (so that
the cubic `interp1d` of line 4610 has enough samples in its window), every
positive framerate, and every well-formed window
`0 ≤ start ≤ stop < len(arr)` whose pre-onset baseline slice
`velocity[max(start-10,0):start]` is empty, `Saccade.__init__` (with
`interpolate_velocity = True` and any length-preserving interpolation oracle)
completes without raising and marks the saccade invalid
(`success = some false`).  Degenerate windows are excluded (on them the
constructor raises `IndexError`, see the counterexample), and so are series
shorter than four samples, on which line 4610 raises `ValueError` because an
empty baseline forces `start = 0` and the interpolation window is then the
whole series. -/
theorem saccadeInit_empty_baseline_invalid
    (interp : List ℚ → List ℚ → List ℚ → List ℚ)
    (arr : List ℚ) (framerate : ℚ) (start stop : ℤ) (bc bt : Bool)
    (hlen : ∀ a b c, (interp a b c).length = c.length)
    (hfr : 0 < framerate)
    (h0 : 0 ≤ start) (h1 : start ≤ stop) (h2 : stop < (arr.length : ℤ))
    (h3 : 4 ≤ arr.length)
    (hempty : pySlice (velocityOf arr framerate) (max (start - 10) 0) start = []) :
    ∃ r, saccadeInit interp arr framerate start stop true bc bt = .ok r ∧
      r.success = some false := by
  have hUlen := npUnwrap_length arr
  have hvlen := velocityOf_length arr framerate
  have hstart0 : start = 0 := by
    by_contra hs
    exact pySlice_ne_nil (velocityOf arr framerate) (max (start - 10) 0) start
      (by omega) (by omega) (by rw [hvlen]; omega) hempty
  subst hstart0
  have hsne : pySlice (npUnwrap arr) 0 (stop + 1) ≠ [] :=
    pySlice_ne_nil _ _ _ h0 (by omega) (by rw [hUlen]; omega)
  have hga := pyGet_zero _ hsne
  have hgb := pyGet_neg_one _ hsne
  have hn2 : ¬ ((npUnwrap arr).length < 2) := by rw [hUlen]; omega
  simp only [saccadeInit, hga, hgb, hn2, if_false, ite_true, if_true,
    Except.bind, Bind.bind, Pure.pure, Except.pure]
  refine saccadeInterpBranch_empty_baseline interp _ _ _ framerate 0 stop _ bc bt hlen ?_ hempty
  rw [pySlice_length_of_nonneg _ _ _ (by omega) (by omega)]
  rw [List.length_map, List.length_range, hUlen]
  omega

/-- C10: for every input, a `Saccade` constructed with
`interpolate_velocity = False` comes back with the validity flag never
assigned (`success = none`, so any subsequent read of the attribute fails),
while on the interpolation path every constructed `Saccade` has the flag
assigned (`success ≠ none`): the flag is assigned only on the interpolation
path. -/
theorem saccadeInit_success_assignment
    (interp : List ℚ → List ℚ → List ℚ → List ℚ)
    (arr : List ℚ) (framerate : ℚ) (start stop : ℤ) (bc bt : Bool) :
    (∀ r, saccadeInit interp arr framerate start stop false bc bt = .ok r →
        r.success = none) ∧
    (∀ r, saccadeInit interp arr framerate start stop true bc bt = .ok r →
        r.success ≠ none) := by
  constructor
  · intro r h
    simp only [saccadeInit, Bool.false_eq_true, if_false, ite_false] at h
    obtain ⟨sa, hsa, h⟩ := bind_ok_iff.mp h
    obtain ⟨sb, hsb, h⟩ := bind_ok_iff.mp h
    split at h
    · exact absurd h (throw_ne_ok _ _)
    · exact saccadeDiscreteBranch_success _ _ _ _ _ r h
  · intro r h
    simp only [saccadeInit, if_true] at h
    obtain ⟨sa, hsa, h⟩ := bind_ok_iff.mp h
    obtain ⟨sb, hsb, h⟩ := bind_ok_iff.mp h
    split at h
    · exact absurd h (throw_ne_ok _ _)
    · have hs := saccadeInterpBranch_success_isSome interp _ _ _ framerate start stop _ bc bt r h
      intro hc
      rw [hc] at hs
      simp at hs

theorem unwrapCorrection_small (d : ℚ) (h : |d| < np_pi) : unwrapCorrection d = 0 := by
  simp [unwrapCorrection, h]

theorem saccadeInit_error_of_empty_span
    (interp : List ℚ → List ℚ → List ℚ → List ℚ)
    (arr : List ℚ) (fr : ℚ) (start stop : ℤ) (ipv bc bt : Bool)
    (h : pySlice (npUnwrap arr) start (stop + 1) = []) :
    saccadeInit interp arr fr start stop ipv bc bt =
      .error "IndexError: index out of bounds" := by
  simp only [saccadeInit, h]
  rw [show pyGet ([] : List ℚ) 0 = .error "IndexError: index out of bounds" by
    norm_num [pyGet]]
  rfl

/-- C6 (counterexample): for the degenerate window `(start, stop) = (0, -1)`
(whose pre-onset velocity slice `velocity[max(start-10,0):start]` is empty)
on the three-sample trial `[0, 0, 0]`, `Saccade.__init__` raises `IndexError`
at `self.arr[0]` — the slice `original_arr[0:0]` is empty — instead of
completing with `success = False` as claimed. -/
theorem saccadeInit_degenerate_window_raises :
    saccadeInit trivialInterp [0, 0, 0] 1 0 (-1) true false true =
      .error "IndexError: index out of bounds" := by
  have h0 : unwrapCorrection 0 = 0 :=
    unwrapCorrection_small 0 (by rw [np_pi]; norm_num)
  apply saccadeInit_error_of_empty_span
  have hU : npUnwrap [0, 0, 0] = [0, 0, 0] := by
    norm_num [npUnwrap, npUnwrapGo, h0]
  rw [hU]
  norm_num [pySlice, pySliceIdx]

/-- C6 (witness): the amended theorem at the concrete four-sample trial
`[0, 0, 0, 0]` at unit framerate with window `(0, 2)`, whose pre-onset
velocity slice is empty. -/
theorem saccadeInit_empty_baseline_invalid_witness :
    ∃ r, saccadeInit trivialInterp [0, 0, 0, 0] 1 0 2 true false true = .ok r ∧
      r.success = some false :=
  saccadeInit_empty_baseline_invalid trivialInterp [0, 0, 0, 0] 1 0 2 false true
    (fun a b c => by simp [trivialInterp])
    (by norm_num) (by norm_num) (by norm_num) (by norm_num) (by norm_num)
    (pySlice_stop_zero _ _)

theorem saccadeInit_eval_discrete :
    saccadeInit trivialInterp [0, 0, 0] 1 0 1 false false true =
      .ok ⟨0, 1, 0, 1, 0, 0, 0, 1, 0, 0, none⟩ := by
  have hc : unwrapCorrection 0 = 0 :=
    unwrapCorrection_small 0 (by rw [np_pi]; norm_num)
  have hU : npUnwrap [0, 0, 0] = [0, 0, 0] := by
    norm_num [npUnwrap, npUnwrapGo, hc]
  have hr3 : List.range 3 = [0, 1, 2] := by decide
  norm_num [saccadeInit, saccadeDiscreteBranch, velocityOf, npGradient, hU, hr3,
    pySlice, pySliceIdx, pyGet, argmaxAbs, argmaxAbsAux, Except.bind, Bind.bind,
    Pure.pure, Except.pure, List.singleton, List.take_succ_cons, List.take_zero,
    List.cons_append, List.nil_append]

/-- C10 (witness): the theorem's no-interpolation part applied to the
concrete trial `[0, 0, 0]` with window `(0, 1)`, whose constructed record is
computed in `saccadeInit_eval_discrete` and indeed carries `success = none`. -/
theorem saccadeInit_success_assignment_witness :
    saccadeInit trivialInterp [0, 0, 0] 1 0 1 false false true =
        .ok ⟨0, 1, 0, 1, 0, 0, 0, 1, 0, 0, none⟩ ∧
      (SaccadeRec.mk 0 1 0 1 0 0 0 1 0 0 none).success = none :=
  ⟨saccadeInit_eval_discrete,
    (saccadeInit_success_assignment trivialInterp [0, 0, 0] 1 0 1 false true).1
      ⟨0, 1, 0, 1, 0, 0, 0, 1, 0, 0, none⟩ saccadeInit_eval_discrete⟩

/-- C5: whenever the innovation covariance of the advanced state is singular,
so that the Kalman-gain computation fails, `Kalman_Filter.get_prediction`
returns the explicit undefined-value marker (`np.array([nan, nan])`,
modelled by `none`) for that step; being a total function, it never raises. -/
theorem get_prediction_singular_returns_nan {n : ℕ} (st : KFState n)
    (h : det2 (innovationCov st) = 0) : (get_prediction st).1 = none := by
  simp [get_prediction, h]

/-- C5 (witness): on the concrete singular state the innovation covariance
has determinant zero and `get_prediction` returns the NaN marker. -/
theorem get_prediction_singular_returns_nan_witness :
    det2 (innovationCov kfSingularState) = 0 ∧
      (get_prediction kfSingularState).1 = none := by
  have h : det2 (innovationCov kfSingularState) = 0 := by
    simp [innovationCov, predictedP, kfSingularState, det2, kalmanEz, kalmanEx,
      Matrix.mul_zero, Matrix.zero_mul, Matrix.cons_val_zero, Matrix.cons_val_one,
      Matrix.head_cons]
  exact ⟨h, get_prediction_singular_returns_nan kfSingularState h⟩

/-- C9: for every input series, every filter backend and every frequency
bound violating `low ≥ 0` or `high > 0`, `butterworth_filter` fails with the
validation message of its leading assertion — independently of the series
and of the filtering backend, i.e. before any processing of the series. -/
theorem butterworth_filter_rejects_bad_bounds
    (sosfilt : BWKind → List ℚ → List ℚ) (vals : List ℚ)
    (low high sr : ℚ) (h : low < 0 ∨ high ≤ 0) :
    butterworth_filter sosfilt vals low high sr =
      .error "Frequency bounds must be non-negative." := by
  unfold butterworth_filter
  rw [if_pos]
  push_neg
  intro hl
  rcases h with h | h
  · exact absurd hl (not_le.mpr h)
  · exact h

/-- C9 (witness): the assertion fires at the concrete violating bounds
`low = -1` (and separately `high = 0`), whatever the series and backend. -/
theorem butterworth_filter_rejects_bad_bounds_witness :
    butterworth_filter (fun _ l => l) [0, 1] (-1) 6 60 =
        .error "Frequency bounds must be non-negative." ∧
      butterworth_filter (fun _ l => l) [0, 1] 1 0 60 =
        .error "Frequency bounds must be non-negative." :=
  ⟨butterworth_filter_rejects_bad_bounds _ _ _ _ _ (Or.inl (by norm_num)),
    butterworth_filter_rejects_bad_bounds _ _ _ _ _ (Or.inr (by norm_num))⟩
